import Mathlib

/-!
Verification of the Progression & Dialogue Engine of the AWS quiz game
(frontend `game.js`, `npc_system.js` and the level/achievement module).

The JavaScript source is shallowly embedded: numbers that carry fractional
intermediate values (difficulty multipliers, remaining-time fractions) are
modelled as rationals with explicit `Int.floor`, integer counters as `Nat`
or `Int`, and JS `null`/`undefined` as `Option`.
-/

namespace Spec2Proof

/-! ## Scoring (`GameManager.calculateScore`, game.js) -/

/-- Question difficulty, the three values of `currentQuestion.difficulty`
recognised by the `switch` in `calculateScore`. -/
inductive Difficulty where
  | easy
  | medium
  | hard
deriving DecidableEq, Repr

/-- The `switch` in `calculateScore`: easy ×1, medium ×1.5, hard ×2. -/
def difficultyMultiplier : Difficulty → ℚ
  | .easy => 1
  | .medium => 3 / 2
  | .hard => 2

/-- The fields of `currentQuestion` read by `calculateScore`. -/
structure Question where
  points : ℕ
  difficulty : Difficulty
  timeLimit : ℕ
  correctAnswer : String
deriving DecidableEq, Repr

/-- The object returned by `calculateScore`. -/
structure ScoreResult where
  isCorrect : Bool
  baseScore : ℕ
  difficultyMultiplier : ℚ
  timeBonus : ℤ
  hintPenalty : ℕ
  totalScore : ℤ
deriving DecidableEq, Repr

/-- `GameManager.calculateScore` (game.js lines 414-442).
`timeRemaining` is the countdown value at submission time
(`timeLimit - elapsed` while the timer runs). -/
def calculateScore (q : Question) (selectedAnswer : String) (timeRemaining : ℤ)
    (hintsUsed : ℕ) : ScoreResult :=
  let isCorrect : Bool := selectedAnswer == q.correctAnswer
  let baseScore : ℕ := q.points
  let timeBonus : ℤ := max 0 ⌊((timeRemaining : ℚ) / (q.timeLimit : ℚ)) * 50⌋
  let hintPenalty : ℕ := hintsUsed * 10
  let mult : ℚ := difficultyMultiplier q.difficulty
  let totalScore : ℤ :=
    if isCorrect then ⌊(baseScore : ℚ) * mult + (timeBonus : ℚ) - (hintPenalty : ℚ)⌋ else 0
  { isCorrect := isCorrect
    baseScore := baseScore
    difficultyMultiplier := mult
    timeBonus := timeBonus
    hintPenalty := hintPenalty
    totalScore := totalScore }

/-- A question used by several concrete examples: the question of spec
Examples 1 and 2 (100 base points, medium difficulty, 60 s limit). -/
def exampleQuestion : Question :=
  { points := 100, difficulty := .medium, timeLimit := 60, correctAnswer := "A" }

/-! ## Level, streak and achievement system (`LevelSystem`) -/

/-- Cumulative experience thresholds for levels 1..20
(`this.levelThresholds`). -/
def levelThresholds : List ℤ :=
  [0, 100, 300, 600, 1000, 1500, 2100, 2800, 3600, 4500,
   5500, 6600, 7800, 9100, 10500, 12000, 13600, 15300, 17100, 19000]

/-- The downward scan of `LevelSystem.calculateLevel`: for `i` from
`fuel - 1` down to `0`, return `i + 1` at the first `i` with
`exp ≥ levelThresholds[i]`; falling through returns level 1. -/
def calcLevelLoop (exp : ℤ) : ℕ → ℕ
  | 0 => 1
  | i + 1 => if levelThresholds.getD i 0 ≤ exp then i + 1 else calcLevelLoop exp i

/-- `LevelSystem.calculateLevel` (loop over the whole threshold table). -/
def calculateLevel (exp : ℤ) : ℕ := calcLevelLoop exp levelThresholds.length

/-- Per-category correct-answer counters (`getCategoryStats` shape). -/
structure CategoryStats where
  EC2 : ℕ
  S3 : ℕ
  Lambda : ℕ
  RDS : ℕ
  VPC : ℕ
deriving DecidableEq, Repr

/-- `LevelSystem.getCategoryStats` currently returns all-zero counters
(per-category tracking is marked "to be implemented" in the source). -/
def getCategoryStats : CategoryStats :=
  { EC2 := 0, S3 := 0, Lambda := 0, RDS := 0, VPC := 0 }

/-- The object built by `LevelSystem.getPlayerStats`; `categoryStats` is an
`Option` because the achievement predicates guard on its presence
(`stats.categoryStats && ...`). -/
structure PlayerStats where
  correctAnswers : ℕ
  questionsAnswered : ℕ
  totalScore : ℤ
  maxStreak : ℕ
  currentStreak : ℕ
  categoryStats : Option CategoryStats
deriving DecidableEq, Repr

/-- One entry of `this.achievementDefinitions`: identifier plus unlock
predicate over (player stats, last question result). -/
structure AchievementDef where
  id : String
  condition : PlayerStats → Option ScoreResult → Bool

/-- `this.achievementDefinitions`, in declaration order (the order of a JS
`for...in` over the object's string keys). -/
def achievementDefinitions : List AchievementDef :=
  [ { id := "first_correct", condition := fun s _ => decide (1 ≤ s.correctAnswers) },
    { id := "streak_5", condition := fun s _ => decide (5 ≤ s.maxStreak) },
    { id := "streak_10", condition := fun s _ => decide (10 ≤ s.maxStreak) },
    { id := "perfect_score", condition := fun _ r =>
        match r with
        | some res => res.isCorrect && decide (res.hintPenalty = 0) && decide (0 < res.timeBonus)
        | none => false },
    { id := "speed_demon", condition := fun _ r =>
        match r with
        | some res => res.isCorrect && decide (40 ≤ res.timeBonus)
        | none => false },
    { id := "ec2_expert", condition := fun s _ =>
        match s.categoryStats with
        | some c => decide (10 ≤ c.EC2)
        | none => false },
    { id := "s3_master", condition := fun s _ =>
        match s.categoryStats with
        | some c => decide (10 ≤ c.S3)
        | none => false },
    { id := "lambda_guru", condition := fun s _ =>
        match s.categoryStats with
        | some c => decide (10 ≤ c.Lambda)
        | none => false },
    { id := "accuracy_master", condition := fun s _ =>
        decide (10 ≤ s.questionsAnswered) &&
        decide ((9 : ℚ) / 10 ≤ (s.correctAnswers : ℚ) / (s.questionsAnswered : ℚ)) },
    { id := "persistent_learner", condition := fun s _ => decide (50 ≤ s.questionsAnswered) },
    { id := "high_scorer", condition := fun s _ => decide (5000 ≤ s.totalScore) } ]

/-- Mutable fields of a `LevelSystem` instance. -/
structure LevelSystemState where
  currentLevel : ℕ
  currentExp : ℤ
  totalScore : ℤ
  achievements : List String
  streakCount : ℕ
  maxStreak : ℕ
deriving DecidableEq, Repr

/-- The fresh state set up by the `LevelSystem` constructor. -/
def initialLevelSystemState : LevelSystemState :=
  { currentLevel := 1, currentExp := 0, totalScore := 0,
    achievements := [], streakCount := 0, maxStreak := 0 }

/-- A state with 95 experience and score (spec Example 3), used by witnesses. -/
def exState95 : LevelSystemState :=
  { initialLevelSystemState with currentExp := 95, totalScore := 95 }

/-- A correct 10-point result (spec Example 3), used by witnesses. -/
def exResultPlus10 : ScoreResult :=
  { isCorrect := true, baseScore := 100, difficultyMultiplier := 1,
    timeBonus := 10, hintPenalty := 0, totalScore := 10 }

/-- A state four answers into a streak (spec Example 4), used by witnesses. -/
def exStreak4 : LevelSystemState :=
  { initialLevelSystemState with streakCount := 4, maxStreak := 4 }

/-- A correct 110-point result (spec Example 4), used by witnesses. -/
def exResultStreak : ScoreResult :=
  { isCorrect := true, baseScore := 100, difficultyMultiplier := 1,
    timeBonus := 10, hintPenalty := 0, totalScore := 110 }

/-- An already-earned achievement list, used by witnesses. -/
def exAch : List String := ["first_correct"]

/-- Player stats five correct answers in (streak 5), used by witnesses. -/
def exStats : PlayerStats :=
  { correctAnswers := 5, questionsAnswered := 5, totalScore := 500,
    maxStreak := 5, currentStreak := 5, categoryStats := some getCategoryStats }

/-- `LevelSystem.getPlayerStats`; `gmCorrect`/`gmAnswered` are the
`gameManager.correctAnswers` / `gameManager.questionsAnswered` counters read
from the collaborating `GameManager`. -/
def getPlayerStats (st : LevelSystemState) (gmCorrect gmAnswered : ℕ) : PlayerStats :=
  { correctAnswers := gmCorrect
    questionsAnswered := gmAnswered
    totalScore := st.totalScore
    maxStreak := st.maxStreak
    currentStreak := st.streakCount
    categoryStats := some getCategoryStats }

/-- One iteration of the loop body of `LevelSystem.checkAchievements`:
skip an already-earned id, otherwise test the condition and append the id to
both the earned list and the newly-unlocked report. -/
def checkStep (stats : PlayerStats) (r : Option ScoreResult)
    (acc : List String × List String) (d : AchievementDef) : List String × List String :=
  if acc.1.contains d.id then acc
  else if d.condition stats r then (acc.1 ++ [d.id], acc.2 ++ [d.id])
  else acc

/-- `LevelSystem.checkAchievements`: returns the updated
`this.achievements` list and the list of newly unlocked ids, produced by
folding `checkStep` over the definitions in declaration order. -/
def checkAchievements (achievements : List String) (stats : PlayerStats)
    (r : Option ScoreResult) : List String × List String :=
  achievementDefinitions.foldl (checkStep stats r) (achievements, [])

/-- `LevelSystem.getRecentAchievements` returns the ids of the last five
entries of `this.achievements` (`slice(-5)`). -/
def getRecentAchievements (st : LevelSystemState) : List String :=
  st.achievements.drop (st.achievements.length - 5)

/-- The object returned by `LevelSystem.addScore`. -/
structure AddScoreResult where
  leveledUp : Bool
  newLevel : ℕ
  newAchievements : List String
deriving DecidableEq, Repr

/-- `LevelSystem.addScore(score, questionResult)`: add the score to both
`totalScore` and `currentExp`, update the streak, recompute the level
(raising `currentLevel` only on level-up), then run the achievement check on
the updated state. -/
def addScore (st : LevelSystemState) (score : ℤ) (questionResult : Option ScoreResult)
    (gmCorrect gmAnswered : ℕ) : LevelSystemState × AddScoreResult :=
  let st1 := { st with totalScore := st.totalScore + score,
                       currentExp := st.currentExp + score }
  let isCorrectResult : Bool := match questionResult with
    | some r => r.isCorrect
    | none => false
  let st2 :=
    if isCorrectResult then
      { st1 with streakCount := st1.streakCount + 1,
                 maxStreak := max st1.maxStreak (st1.streakCount + 1) }
    else
      { st1 with streakCount := 0 }
  let newLevel := calculateLevel st2.currentExp
  let leveledUp : Bool := decide (st2.currentLevel < newLevel)
  let st3 := if leveledUp then { st2 with currentLevel := newLevel } else st2
  let checked := checkAchievements st3.achievements (getPlayerStats st3 gmCorrect gmAnswered)
    questionResult
  let st4 := { st3 with achievements := checked.1 }
  (st4, { leveledUp := leveledUp, newLevel := st4.currentLevel,
          newAchievements := getRecentAchievements st4 })

/-! ## NPC hint system (`npc_system.js`: `requestNpcHint`,
`generateEnhancedFallbackHint`, `typeMessage`/`skipDialogue`) and the
`GameManager.requestHint` guard (game.js lines 532-556) -/

/-- One level of a fallback hint template: the generic `base` text plus one
text per NPC identifier. -/
structure HintTemplate where
  base : String
  alex_ceo : String
  sarah_analyst : String
  mike_security : String
  jenny_developer : String
deriving DecidableEq, Repr

/-- The EC2 entry of `enhancedHintTemplates` (hint levels 1..3). -/
def ec2Hints : ℕ → Option HintTemplate
  | 1 => some
    { base := "인스턴스 확장성과 로드 밸런싱을 고려해보세요.",
      alex_ceo := "트래픽 급증에 대비한 확장 가능한 솔루션이 필요해요!",
      sarah_analyst := "데이터를 보니 Auto Scaling이 가장 효율적일 것 같아요.",
      mike_security := "보안을 유지하면서 확장할 수 있는 방법을 찾아보세요.",
      jenny_developer := "서버 관리 없이 자동으로 확장되는 방법이 있어요!" }
  | 2 => some
    { base := "Auto Scaling Group과 Application Load Balancer 조합을 생각해보세요.",
      alex_ceo := "ALB와 ASG로 비용 효율적인 확장이 가능해요!",
      sarah_analyst := "로드 밸런서 메트릭을 분석하면 최적의 설정을 찾을 수 있어요.",
      mike_security := "보안 그룹과 함께 안전한 로드 밸런싱을 구성해보세요.",
      jenny_developer := "코드 배포도 자동화할 수 있는 완벽한 조합이에요!" }
  | 3 => some
    { base := "다중 AZ 배포와 CloudWatch 모니터링을 포함한 완전한 아키텍처를 설계해보세요.",
      alex_ceo := "투자자들이 좋아할 고가용성 아키텍처를 만들어봅시다!",
      sarah_analyst := "CloudWatch 대시보드로 모든 지표를 한눈에 볼 수 있어요.",
      mike_security := "다중 AZ로 장애 복구와 보안을 동시에 확보하세요.",
      jenny_developer := "Infrastructure as Code로 전체 스택을 관리해보세요!" }
  | _ => none

/-- The S3 entry of `enhancedHintTemplates` (hint levels 1..3). -/
def s3Hints : ℕ → Option HintTemplate
  | 1 => some
    { base := "스토리지 클래스와 액세스 패턴을 고려해보세요.",
      alex_ceo := "비용 최적화를 위한 스토리지 전략이 중요해요!",
      sarah_analyst := "액세스 패턴을 분석해서 적절한 클래스를 선택하세요.",
      mike_security := "데이터 암호화와 접근 제어를 잊지 마세요.",
      jenny_developer := "라이프사이클 정책으로 자동화해보세요!" }
  | 2 => some
    { base := "Standard-IA, Glacier 등 적절한 스토리지 클래스를 선택해보세요.",
      alex_ceo := "Standard-IA로 비용을 70% 절약할 수 있어요!",
      sarah_analyst := "데이터 액세스 빈도에 따라 클래스를 분류해보세요.",
      mike_security := "Glacier로 장기 보관하면서 규제 요구사항도 만족해요.",
      jenny_developer := "Intelligent Tiering으로 자동 최적화가 가능해요!" }
  | 3 => some
    { base := "라이프사이클 정책과 버전 관리를 포함한 완전한 스토리지 전략을 수립해보세요.",
      alex_ceo := "완전 자동화된 스토리지 관리로 운영비를 대폭 절감해요!",
      sarah_analyst := "버전 관리와 메트릭 분석으로 완벽한 데이터 거버넌스를 구축하세요.",
      mike_security := "MFA Delete와 Cross-Region Replication으로 최고 수준의 보안을 확보하세요.",
      jenny_developer := "S3 이벤트와 Lambda로 완전 자동화된 워크플로우를 만들어보세요!" }
  | _ => none

/-- The LAMBDA entry of `enhancedHintTemplates` (hint levels 1..3). -/
def lambdaHints : ℕ → Option HintTemplate
  | 1 => some
    { base := "서버리스 아키텍처와 이벤트 기반 처리를 고려해보세요.",
      alex_ceo := "서버 관리 비용을 완전히 없앨 수 있어요!",
      sarah_analyst := "이벤트 기반으로 정확한 데이터 처리가 가능해요.",
      mike_security := "서버리스로 공격 표면을 최소화할 수 있어요.",
      jenny_developer := "코드만 작성하면 나머지는 AWS가 알아서 해줘요!" }
  | 2 => some
    { base := "Lambda와 API Gateway, DynamoDB 조합을 생각해보세요.",
      alex_ceo := "완전 서버리스 스택으로 운영비 제로를 달성해요!",
      sarah_analyst := "DynamoDB 스트림으로 실시간 데이터 분석이 가능해요.",
      mike_security := "IAM 역할로 세밀한 권한 제어가 가능해요.",
      jenny_developer := "SAM이나 CDK로 전체 스택을 코드로 관리해보세요!" }
  | 3 => some
    { base := "Step Functions를 활용한 워크플로우 오케스트레이션을 포함해보세요.",
      alex_ceo := "복잡한 비즈니스 로직도 시각적으로 관리할 수 있어요!",
      sarah_analyst := "Step Functions으로 데이터 파이프라인을 체계적으로 구성하세요.",
      mike_security := "각 단계별로 보안 검증을 추가할 수 있어요.",
      jenny_developer := "에러 처리와 재시도 로직까지 완벽하게 자동화해보세요!" }
  | _ => none

/-- The RDS entry of `enhancedHintTemplates` (hint levels 1..3). -/
def rdsHints : ℕ → Option HintTemplate
  | 1 => some
    { base := "데이터베이스 가용성과 백업 전략을 고려해보세요.",
      alex_ceo := "데이터베이스 다운타임은 비즈니스에 치명적이에요!",
      sarah_analyst := "백업과 복구 시간을 정확히 계산해보세요.",
      mike_security := "데이터 암호화와 접근 제어가 필수예요.",
      jenny_developer := "자동 백업으로 관리 부담을 줄여보세요!" }
  | 2 => some
    { base := "Multi-AZ 배포와 Read Replica를 생각해보세요.",
      alex_ceo := "Multi-AZ로 99.95% 가용성을 보장할 수 있어요!",
      sarah_analyst := "Read Replica로 읽기 성능을 5배까지 향상시킬 수 있어요.",
      mike_security := "암호화된 Read Replica로 보안과 성능을 동시에 확보하세요.",
      jenny_developer := "Aurora Serverless로 자동 스케일링까지 가능해요!" }
  | 3 => some
    { base := "자동 백업, 모니터링, 성능 최적화를 포함한 완전한 DB 솔루션을 설계해보세요.",
      alex_ceo := "완전 자동화된 DB 관리로 DBA 비용까지 절약해요!",
      sarah_analyst := "Performance Insights로 쿼리 성능을 실시간 분석하세요.",
      mike_security := "Database Activity Streaming으로 모든 DB 활동을 감시하세요.",
      jenny_developer := "RDS Proxy와 Lambda로 연결 풀링까지 자동화해보세요!" }
  | _ => none

/-- The VPC entry of `enhancedHintTemplates` (hint levels 1..3). -/
def vpcHints : ℕ → Option HintTemplate
  | 1 => some
    { base := "네트워크 보안과 서브넷 구성을 고려해보세요.",
      alex_ceo := "네트워크 설계가 전체 아키텍처의 기반이에요!",
      sarah_analyst := "트래픽 패턴을 분석해서 서브넷을 설계하세요.",
      mike_security := "네트워크 레벨에서부터 보안을 강화해야 해요.",
      jenny_developer := "Infrastructure as Code로 네트워크를 관리해보세요!" }
  | 2 => some
    { base := "퍼블릭/프라이빗 서브넷과 NAT Gateway를 생각해보세요.",
      alex_ceo := "NAT Gateway로 아웃바운드 트래픽을 안전하게 관리해요!",
      sarah_analyst := "서브넷별 트래픽 분석으로 최적의 구성을 찾으세요.",
      mike_security := "프라이빗 서브넷으로 내부 리소스를 완전히 격리하세요.",
      jenny_developer := "Terraform으로 전체 네트워크 인프라를 코드화해보세요!" }
  | 3 => some
    { base := "보안 그룹, NACL, VPC 엔드포인트를 포함한 완전한 네트워크 아키텍처를 설계해보세요.",
      alex_ceo := "엔터프라이즈급 네트워크 보안으로 고객 신뢰를 확보해요!",
      sarah_analyst := "VPC Flow Logs로 모든 네트워크 트래픽을 분석하세요.",
      mike_security := "다층 보안으로 제로 트러스트 네트워크를 구축하세요.",
      jenny_developer := "VPC 엔드포인트로 AWS 서비스 통신을 완전히 프라이빗하게 만들어보세요!" }
  | _ => none

/-- The `defaultHints` table of `generateEnhancedFallbackHint`, used when
the category or the hint level has no entry of its own. -/
def defaultHints : ℕ → Option HintTemplate
  | 1 => some
    { base := "AWS의 관리형 서비스를 활용해보세요.",
      alex_ceo := "관리형 서비스로 운영 비용을 대폭 절감할 수 있어요!",
      sarah_analyst := "관리형 서비스의 성능 지표를 분석해보세요.",
      mike_security := "AWS 관리형 서비스는 보안 패치가 자동으로 적용돼요.",
      jenny_developer := "관리형 서비스로 개발에만 집중할 수 있어요!" }
  | 2 => some
    { base := "고가용성과 비용 효율성을 동시에 고려해보세요.",
      alex_ceo := "고가용성으로 비즈니스 연속성을 보장하면서 비용도 최적화해요!",
      sarah_analyst := "가용성 지표와 비용 분석을 통해 최적점을 찾으세요.",
      mike_security := "고가용성 구성에서도 보안 요구사항을 만족해야 해요.",
      jenny_developer := "자동화로 고가용성과 비용 효율성을 동시에 달성해보세요!" }
  | 3 => some
    { base := "모니터링과 자동화를 포함한 완전한 솔루션을 설계해보세요.",
      alex_ceo := "완전 자동화로 운영팀 없이도 안정적인 서비스를 만들어요!",
      sarah_analyst := "종합적인 모니터링 대시보드로 모든 지표를 추적하세요.",
      mike_security := "자동화된 보안 모니터링과 대응 체계를 구축하세요.",
      jenny_developer := "GitOps와 CI/CD로 완전 자동화된 배포 파이프라인을 만들어보세요!" }
  | _ => none

/-- The category lookup `enhancedHintTemplates[category]` of
`generateEnhancedFallbackHint`: only the five AWS categories have entries. -/
def enhancedHintTemplates (category : String) : Option (ℕ → Option HintTemplate) :=
  if category = "EC2" then some ec2Hints
  else if category = "S3" then some s3Hints
  else if category = "LAMBDA" then some lambdaHints
  else if category = "RDS" then some rdsHints
  else if category = "VPC" then some vpcHints
  else none

/-- `levelHints[this.currentNpc] || levelHints.base`: the NPC-specific text
of a template, falling back to the `base` text for unknown NPC ids. -/
def npcSpecificHint (t : HintTemplate) (npc : String) : String :=
  if npc = "alex_ceo" then t.alex_ceo
  else if npc = "sarah_analyst" then t.sarah_analyst
  else if npc = "mike_security" then t.mike_security
  else if npc = "jenny_developer" then t.jenny_developer
  else t.base

/-- The hint object returned by `requestNpcHint` /
`generateEnhancedFallbackHint`. -/
structure HintData where
  hint : String
  message : String
  hintLevel : ℕ
  source : String
  npcId : String
  category : String
deriving DecidableEq, Repr

/-- `NPCSystem.generateEnhancedFallbackHint(questionData, npcData, hintLevel)`.
`categoryOpt` models `questionData.category` (possibly absent);
the JS uppercases `questionData.category` and maps a missing or empty
category to `"GENERAL"`. `none` models the `TypeError` the JS would raise
when neither the category table nor `defaultHints` has the hint level
(impossible for levels 1..3). -/
def generateEnhancedFallbackHint (categoryOpt : Option String) (currentNpc : String)
    (hintLevel : ℕ) : Option HintData :=
  let category : String := match categoryOpt with
    | some c => if c.toUpper = "" then "GENERAL" else c.toUpper
    | none => "GENERAL"
  let catHints : ℕ → Option HintTemplate :=
    (enhancedHintTemplates category).getD defaultHints
  let levelHints : Option HintTemplate := match catHints hintLevel with
    | some t => some t
    | none => defaultHints hintLevel
  match levelHints with
  | some t => some
      { hint := t.base
        message := npcSpecificHint t currentNpc
        hintLevel := hintLevel
        source := "enhanced_fallback"
        npcId := currentNpc
        category := category }
  | none => none

/-- Outcome of the remote `fetch` to the `/hints` endpoint as observed by
`requestNpcHint`: a parsed JSON payload, or one of the failures that land in
the `catch` block (rejected fetch, non-ok HTTP status, unparsable body). -/
inductive RemoteHintOutcome where
  | ok (payload : HintData)
  | networkError
  | httpError (status : ℕ)
  | malformedBody
deriving DecidableEq, Repr

/-- Whether the remote lookup failed (everything except a parsed payload). -/
def RemoteHintOutcome.isFailure : RemoteHintOutcome → Bool
  | .ok _ => false
  | .networkError => true
  | .httpError _ => true
  | .malformedBody => true

/-- `NPCSystem.requestNpcHint(questionData, hintLevel)`: `null` without a
current NPC; the remote payload on success; otherwise the enhanced local
fallback built in the `catch` block. -/
def requestNpcHint (currentNpc : Option String) (category : Option String)
    (hintLevel : ℕ) (remote : RemoteHintOutcome) : Option HintData :=
  match currentNpc with
  | none => none
  | some npc =>
    match remote with
    | .ok payload => some payload
    | _ => generateEnhancedFallbackHint category npc hintLevel

/-- The `NPCSystem` session fields relevant to the typed-text effect. -/
structure NpcSessionState where
  isTyping : Bool
  currentNpc : Option String
deriving DecidableEq, Repr

/-- Entry of `typeMessage`: the typed effect becomes active. -/
def typeMessageBegin (st : NpcSessionState) : NpcSessionState :=
  { st with isTyping := true }

/-- Exit of `typeMessage` (completed or skipped): the effect ends. -/
def typeMessageEnd (st : NpcSessionState) : NpcSessionState :=
  { st with isTyping := false }

/-- `NPCSystem.skipDialogue`: clears the typing flag (the typing loop then
stops at its next suspension point). -/
def skipDialogue (st : NpcSessionState) : NpcSessionState :=
  { st with isTyping := false }

/-- The possible outcomes of the guard clauses of `GameManager.requestHint`
(game.js lines 532-556). -/
inductive RequestHintOutcome where
  | noQuestionNotice
  | hintLimitNotice
  | proceedsToHint
deriving DecidableEq, Repr

/-- The guard structure of `GameManager.requestHint`: reject without a
loaded question, reject after three hints, otherwise proceed to
`provideHint`. The NPC typing flag is threaded through to show it is never
consulted. -/
def requestHintGate (currentQuestion : Option Question) (hintsUsed : ℕ)
    (npcTyping : Bool) : RequestHintOutcome :=
  match currentQuestion with
  | none => .noQuestionNotice
  | some _ => if 3 ≤ hintsUsed then .hintLimitNotice else .proceedsToHint

/-! ## Proofs -/

lemma floor_add_int_sub_nat (x : ℚ) (a : ℤ) (n : ℕ) :
    ⌊x + (a : ℚ) - (n : ℚ)⌋ = ⌊x⌋ + a - n := by
  have hn : ((n : ℚ)) = ((n : ℤ) : ℚ) := by push_cast; ring
  rw [hn, Int.floor_sub_int, Int.floor_add_int]

lemma calculateScore_timeBonus_def (q : Question) (sel : String) (tr : ℤ) (hints : ℕ) :
    (calculateScore q sel tr hints).timeBonus =
      max 0 ⌊((tr : ℚ) / (q.timeLimit : ℚ)) * 50⌋ := rfl

lemma calculateScore_totalScore_correct (q : Question) (sel : String) (tr : ℤ)
    (hints : ℕ) (h : sel = q.correctAnswer) :
    (calculateScore q sel tr hints).totalScore =
      ⌊(q.points : ℚ) * difficultyMultiplier q.difficulty⌋
        + (calculateScore q sel tr hints).timeBonus - (hints : ℤ) * 10 := by
  have hb : (sel == q.correctAnswer) = true := by simp [h]
  simp only [calculateScore, hb, if_true]
  have hcast : ((hints * 10 : ℕ) : ℚ) = (((hints : ℤ) * 10 : ℤ) : ℚ) := by push_cast; ring
  rw [hcast, Int.floor_sub_int, Int.floor_add_int]

lemma calculateScore_totalScore_incorrect (q : Question) (sel : String) (tr : ℤ)
    (hints : ℕ) (h : sel ≠ q.correctAnswer) :
    (calculateScore q sel tr hints).totalScore = 0 := by
  have hb : (sel == q.correctAnswer) = false := by simp [h]
  simp only [calculateScore, hb, if_false, Bool.false_eq_true]

lemma timeBonus_nonneg (q : Question) (sel : String) (tr : ℤ) (hints : ℕ) :
    0 ≤ (calculateScore q sel tr hints).timeBonus :=
  le_max_left 0 _

lemma timeBonus_le_50 (q : Question) (sel : String) (tr : ℤ) (hints : ℕ)
    (ht : 0 < q.timeLimit) (htr : tr ≤ (q.timeLimit : ℤ)) :
    (calculateScore q sel tr hints).timeBonus ≤ 50 := by
  rw [calculateScore_timeBonus_def]
  have htq : (0 : ℚ) < (q.timeLimit : ℚ) := by exact_mod_cast ht
  have hdiv : ((tr : ℚ) / (q.timeLimit : ℚ)) ≤ 1 := by
    rw [div_le_one htq]; exact_mod_cast htr
  have hmul : ((tr : ℚ) / (q.timeLimit : ℚ)) * 50 ≤ 50 := by nlinarith
  have hfl : ⌊((tr : ℚ) / (q.timeLimit : ℚ)) * 50⌋ ≤ 50 := by
    have := Int.floor_le_floor hmul
    simpa using this
  exact max_le (by norm_num) hfl

lemma floor_points_mult_nonneg (q : Question) :
    0 ≤ ⌊(q.points : ℚ) * difficultyMultiplier q.difficulty⌋ := by
  apply Int.floor_nonneg.mpr
  have hm : 0 ≤ difficultyMultiplier q.difficulty := by
    cases q.difficulty <;> simp [difficultyMultiplier] <;> norm_num
  positivity

/-- C1: for a correct submission with `0 ≤ elapsed ≤ timeLimit`, the score
computation returns
`timeBonus = ⌊max 0 ((timeLimit - elapsed)/timeLimit) * 50⌋` and
`totalPoints = ⌊basePoints * difficultyMultiplier + timeBonus⌋ - 10 * hintsUsed`,
with multiplier 1 for easy, 1.5 for medium and 2 for hard; in particular the
spec's Example 1 (basePoints 100, medium, timeLimit 60, elapsed 15,
hintsUsed 1, correct) yields timeBonus 37 and totalPoints 177. -/
theorem calculateScore_correct_formula :
    (∀ (q : Question) (sel : String) (elapsed hintsUsed : ℕ),
      0 < q.timeLimit → elapsed ≤ q.timeLimit → sel = q.correctAnswer →
      (calculateScore q sel ((q.timeLimit : ℤ) - (elapsed : ℤ)) hintsUsed).timeBonus =
        ⌊(max 0 (((q.timeLimit : ℚ) - (elapsed : ℚ)) / (q.timeLimit : ℚ))) * 50⌋ ∧
      (calculateScore q sel ((q.timeLimit : ℤ) - (elapsed : ℤ)) hintsUsed).totalScore =
        ⌊(q.points : ℚ) * difficultyMultiplier q.difficulty +
          ((calculateScore q sel ((q.timeLimit : ℤ) - (elapsed : ℤ)) hintsUsed).timeBonus : ℚ)⌋
          - 10 * (hintsUsed : ℤ)) ∧
    difficultyMultiplier .easy = 1 ∧
    difficultyMultiplier .medium = 3 / 2 ∧
    difficultyMultiplier .hard = 2 ∧
    (calculateScore exampleQuestion "A" 45 1).timeBonus = 37 ∧
    (calculateScore exampleQuestion "A" 45 1).totalScore = 177 := by
  refine ⟨?_, rfl, rfl, rfl, ?_, ?_⟩
  · intro q sel elapsed hintsUsed ht he hsel
    have htq : (0 : ℚ) < (q.timeLimit : ℚ) := by exact_mod_cast ht
    have hrq : (0 : ℚ) ≤ ((q.timeLimit : ℚ) - (elapsed : ℚ)) := by
      have : (elapsed : ℚ) ≤ (q.timeLimit : ℚ) := by exact_mod_cast he
      linarith
    have hcast : (((q.timeLimit : ℤ) - (elapsed : ℤ) : ℤ) : ℚ)
        = (q.timeLimit : ℚ) - (elapsed : ℚ) := by push_cast; ring
    have hdivnn : (0 : ℚ) ≤ ((q.timeLimit : ℚ) - (elapsed : ℚ)) / (q.timeLimit : ℚ) :=
      div_nonneg hrq (le_of_lt htq)
    have hfl_nn : 0 ≤ ⌊(((q.timeLimit : ℚ) - (elapsed : ℚ)) / (q.timeLimit : ℚ)) * 50⌋ :=
      Int.floor_nonneg.mpr (by nlinarith)
    have htb : (calculateScore q sel ((q.timeLimit : ℤ) - (elapsed : ℤ)) hintsUsed).timeBonus =
        ⌊(((q.timeLimit : ℚ) - (elapsed : ℚ)) / (q.timeLimit : ℚ)) * 50⌋ := by
      rw [calculateScore_timeBonus_def, hcast, max_eq_right hfl_nn]
    refine ⟨?_, ?_⟩
    · rw [htb, max_eq_right hdivnn]
    · rw [calculateScore_totalScore_correct q sel _ _ hsel, Int.floor_add_int]
      ring
  · simp only [calculateScore, exampleQuestion]
    norm_num
  · simp only [calculateScore, exampleQuestion, difficultyMultiplier]
    norm_num

/-- Witness for C1 at the spec's Example 1 inputs. -/
theorem calculateScore_correct_formula_witness :
    (calculateScore exampleQuestion "A" ((exampleQuestion.timeLimit : ℤ) - (15 : ℕ)) 1).timeBonus =
      ⌊(max 0 (((exampleQuestion.timeLimit : ℚ) - ((15 : ℕ) : ℚ)) / (exampleQuestion.timeLimit : ℚ))) * 50⌋ ∧
    (calculateScore exampleQuestion "A" ((exampleQuestion.timeLimit : ℤ) - (15 : ℕ)) 1).totalScore =
      ⌊(exampleQuestion.points : ℚ) * difficultyMultiplier exampleQuestion.difficulty +
        ((calculateScore exampleQuestion "A" ((exampleQuestion.timeLimit : ℤ) - (15 : ℕ)) 1).timeBonus : ℚ)⌋
        - 10 * ((1 : ℕ) : ℤ) :=
  calculateScore_correct_formula.1 exampleQuestion "A" 15 1 (by decide) (by decide) rfl

/-- C2 counterexample: there is no clamping to 0 in `calculateScore` — with
basePoints 100, easy difficulty, `elapsed = timeLimit` (timeRemaining 0) and
11 hints used, the correct-answer total is `100 + 0 - 110 = -10 < 0`. -/
theorem totalScore_negative_counterexample :
    (calculateScore { points := 100, difficulty := .easy, timeLimit := 60, correctAnswer := "A" }
      "A" ((60 : ℤ) - (60 : ℤ)) 11).totalScore = -10 := by
  simp only [calculateScore, difficultyMultiplier]
  norm_num

/-- C2 (amended): for `0 ≤ elapsed ≤ timeLimit` the total never exceeds
`⌊basePoints * multiplier⌋ + 50`, and it is nonnegative provided the hint
penalty does not exceed `⌊basePoints * multiplier⌋` (the code performs no
clamping at 0, so larger hint counts give negative totals). -/
theorem totalScore_bounds (q : Question) (sel : String) (elapsed hintsUsed : ℕ)
    (ht : 0 < q.timeLimit) (he : elapsed ≤ q.timeLimit) :
    (calculateScore q sel ((q.timeLimit : ℤ) - (elapsed : ℤ)) hintsUsed).totalScore ≤
      ⌊(q.points : ℚ) * difficultyMultiplier q.difficulty⌋ + 50 ∧
    ((hintsUsed : ℤ) * 10 ≤ ⌊(q.points : ℚ) * difficultyMultiplier q.difficulty⌋ →
      0 ≤ (calculateScore q sel ((q.timeLimit : ℤ) - (elapsed : ℤ)) hintsUsed).totalScore) := by
  have htr : ((q.timeLimit : ℤ) - (elapsed : ℤ)) ≤ (q.timeLimit : ℤ) := by omega
  by_cases hsel : sel = q.correctAnswer
  · rw [calculateScore_totalScore_correct q sel _ _ hsel]
    have h50 := timeBonus_le_50 q sel ((q.timeLimit : ℤ) - (elapsed : ℤ)) hintsUsed ht htr
    have hnn := timeBonus_nonneg q sel ((q.timeLimit : ℤ) - (elapsed : ℤ)) hintsUsed
    constructor
    · omega
    · intro hp; omega
  · rw [calculateScore_totalScore_incorrect q sel _ _ hsel]
    have hpm := floor_points_mult_nonneg q
    exact ⟨by omega, fun _ => le_refl 0⟩

/-- Witness for C2 (amended) at the Example 1 inputs. -/
theorem totalScore_bounds_witness :
    (calculateScore exampleQuestion "A" ((exampleQuestion.timeLimit : ℤ) - ((15 : ℕ) : ℤ)) 1).totalScore ≤
      ⌊(exampleQuestion.points : ℚ) * difficultyMultiplier exampleQuestion.difficulty⌋ + 50 ∧
    (((1 : ℕ) : ℤ) * 10 ≤ ⌊(exampleQuestion.points : ℚ) * difficultyMultiplier exampleQuestion.difficulty⌋ →
      0 ≤ (calculateScore exampleQuestion "A" ((exampleQuestion.timeLimit : ℤ) - ((15 : ℕ) : ℤ)) 1).totalScore) :=
  totalScore_bounds exampleQuestion "A" 15 1 (by decide) (by decide)

/-- C3: a submission whose selected option differs from the correct option
scores exactly 0, for every hint count and every remaining time. -/
theorem incorrect_answer_scores_zero (q : Question) (sel : String) (tr : ℤ)
    (hints : ℕ) (h : sel ≠ q.correctAnswer) :
    (calculateScore q sel tr hints).totalScore = 0 :=
  calculateScore_totalScore_incorrect q sel tr hints h

/-- Witness for C3: the spec's Example 2 shape (wrong option "B", 45 s
remaining, 7 hints). -/
theorem incorrect_answer_scores_zero_witness :
    (calculateScore exampleQuestion "B" 45 7).totalScore = 0 :=
  incorrect_answer_scores_zero exampleQuestion "B" 45 7 (by decide)

/-! ### Field characterizations of `addScore` -/

lemma addScore_currentExp (st : LevelSystemState) (score : ℤ) (r : Option ScoreResult)
    (gc ga : ℕ) : (addScore st score r gc ga).1.currentExp = st.currentExp + score := by
  rcases r with _ | res <;> simp only [addScore] <;> split <;> split <;> rfl

lemma addScore_totalScore (st : LevelSystemState) (score : ℤ) (r : Option ScoreResult)
    (gc ga : ℕ) : (addScore st score r gc ga).1.totalScore = st.totalScore + score := by
  rcases r with _ | res <;> simp only [addScore] <;> split <;> split <;> rfl

lemma addScore_currentLevel (st : LevelSystemState) (score : ℤ) (r : Option ScoreResult)
    (gc ga : ℕ) :
    (addScore st score r gc ga).1.currentLevel =
      max st.currentLevel (calculateLevel (st.currentExp + score)) := by
  rcases r with _ | res <;> simp only [addScore] <;> split <;> split <;>
    first
      | (rename_i hlt; simp only [decide_eq_true_eq] at hlt; exact (max_eq_right (le_of_lt hlt)).symm)
      | (rename_i hlt; simp only [decide_eq_true_eq] at hlt; exact (max_eq_left (not_lt.mp hlt)).symm)

lemma addScore_leveledUp (st : LevelSystemState) (score : ℤ) (r : Option ScoreResult)
    (gc ga : ℕ) :
    (addScore st score r gc ga).2.leveledUp =
      decide (st.currentLevel < calculateLevel (st.currentExp + score)) := by
  rcases r with _ | res <;> simp only [addScore] <;> split <;> rfl

lemma addScore_streak_correct (st : LevelSystemState) (score : ℤ) (res : ScoreResult)
    (gc ga : ℕ) (h : res.isCorrect = true) :
    (addScore st score (some res) gc ga).1.streakCount = st.streakCount + 1 ∧
    (addScore st score (some res) gc ga).1.maxStreak =
      max st.maxStreak (st.streakCount + 1) := by
  simp [addScore, h, apply_ite LevelSystemState.streakCount,
    apply_ite LevelSystemState.maxStreak]

lemma addScore_streak_reset (st : LevelSystemState) (score : ℤ) (r : Option ScoreResult)
    (gc ga : ℕ) (h : (match r with | some res => res.isCorrect | none => false) = false) :
    (addScore st score r gc ga).1.streakCount = 0 ∧
    (addScore st score r gc ga).1.maxStreak = st.maxStreak := by
  rcases r with _ | res
  · simp [addScore, apply_ite LevelSystemState.streakCount,
      apply_ite LevelSystemState.maxStreak]
  · simp only at h
    simp [addScore, h, apply_ite LevelSystemState.streakCount,
      apply_ite LevelSystemState.maxStreak]

lemma addScore_achievements (st : LevelSystemState) (score : ℤ) (r : Option ScoreResult)
    (gc ga : ℕ) :
    ∃ stats, (addScore st score r gc ga).1.achievements =
      (checkAchievements st.achievements stats r).1 := by
  rcases r with _ | res <;> simp only [addScore] <;> split <;> split <;>
    exact ⟨_, rfl⟩

/-! ### `calculateLevel` lemmas -/

lemma calcLevelLoop_pos (exp : ℤ) (n : ℕ) : 1 ≤ calcLevelLoop exp n := by
  induction n with
  | zero => simp [calcLevelLoop]
  | succ i ih =>
    rw [calcLevelLoop]
    split
    · omega
    · exact ih

lemma calcLevelLoop_le (exp : ℤ) (n : ℕ) : calcLevelLoop exp n ≤ max 1 n := by
  induction n with
  | zero => simp [calcLevelLoop]
  | succ i ih =>
    rw [calcLevelLoop]
    split
    · omega
    · calc calcLevelLoop exp i ≤ max 1 i := ih
        _ ≤ max 1 (i + 1) := by omega

lemma calcLevelLoop_fuel_step (exp : ℤ) (n : ℕ) :
    calcLevelLoop exp n ≤ calcLevelLoop exp (n + 1) := by
  conv_rhs => rw [calcLevelLoop]
  split
  · have := calcLevelLoop_le exp n; omega
  · exact le_refl _

lemma calcLevelLoop_mono (exp exp' : ℤ) (n : ℕ) (h : exp ≤ exp') :
    calcLevelLoop exp n ≤ calcLevelLoop exp' n := by
  induction n with
  | zero => exact le_refl _
  | succ i ih =>
    rw [calcLevelLoop, calcLevelLoop]
    split
    · rename_i hth
      rw [if_pos (le_trans hth h)]
    · split
      · have := calcLevelLoop_le exp i; omega
      · exact ih

lemma calcLevelLoop_threshold (exp : ℤ) (n : ℕ) (hexp : 0 ≤ exp) :
    levelThresholds.getD (calcLevelLoop exp n - 1) 0 ≤ exp := by
  induction n with
  | zero => simpa [calcLevelLoop, levelThresholds] using hexp
  | succ i ih =>
    rw [calcLevelLoop]
    split
    · rename_i hth; simpa using hth
    · exact ih

lemma calcLevelLoop_greatest (exp : ℤ) (n : ℕ) (j : ℕ) (hj1 : 1 ≤ j) (hjn : j ≤ n)
    (hth : levelThresholds.getD (j - 1) 0 ≤ exp) : j ≤ calcLevelLoop exp n := by
  induction n with
  | zero => omega
  | succ i ih =>
    rw [calcLevelLoop]
    split
    · omega
    · rename_i hneg
      rcases Nat.lt_or_ge j (i + 1) with hlt | hge
      · exact ih (by omega)
      · exfalso
        have : j = i + 1 := by omega
        subst this
        simp only [Nat.add_sub_cancel] at hth
        exact hneg hth

lemma calculateLevel_pos (exp : ℤ) : 1 ≤ calculateLevel exp :=
  calcLevelLoop_pos exp _

lemma calculateLevel_le_20 (exp : ℤ) : calculateLevel exp ≤ 20 := by
  have h := calcLevelLoop_le exp levelThresholds.length
  simpa [calculateLevel, levelThresholds] using h

lemma calculateLevel_mono (exp exp' : ℤ) (h : exp ≤ exp') :
    calculateLevel exp ≤ calculateLevel exp' :=
  calcLevelLoop_mono exp exp' _ h

lemma calculateLevel_threshold (exp : ℤ) (hexp : 0 ≤ exp) :
    levelThresholds.getD (calculateLevel exp - 1) 0 ≤ exp :=
  calcLevelLoop_threshold exp _ hexp

lemma calculateLevel_greatest (exp : ℤ) (j : ℕ) (hj1 : 1 ≤ j) (hj20 : j ≤ 20)
    (hth : levelThresholds.getD (j - 1) 0 ≤ exp) : j ≤ calculateLevel exp := by
  apply calcLevelLoop_greatest exp _ j hj1 _ hth
  simp [levelThresholds]
  omega

/-! ### Claim theorems about `addScore` -/

/-- C4: whenever the state is consistent (`currentLevel` is the recomputed
level of `currentExp`, experience nonnegative) and the added score is
nonnegative, after `addScore` the level again equals the recomputed level of
the new experience, is the greatest 1-based index into the 20-entry
threshold table whose threshold the experience meets, is non-decreasing
across the call, never exceeds 20, and the returned `leveledUp` flag is true
iff the recomputed level strictly exceeds the pre-call level. -/
theorem addScore_level_spec (st : LevelSystemState) (score : ℤ)
    (r : Option ScoreResult) (gc ga : ℕ)
    (hscore : 0 ≤ score) (hexp : 0 ≤ st.currentExp)
    (hconsist : st.currentLevel = calculateLevel st.currentExp) :
    (addScore st score r gc ga).1.currentLevel =
      calculateLevel (addScore st score r gc ga).1.currentExp ∧
    levelThresholds.getD ((addScore st score r gc ga).1.currentLevel - 1) 0 ≤
      (addScore st score r gc ga).1.currentExp ∧
    (∀ j, 1 ≤ j → j ≤ 20 →
      levelThresholds.getD (j - 1) 0 ≤ (addScore st score r gc ga).1.currentExp →
      j ≤ (addScore st score r gc ga).1.currentLevel) ∧
    st.currentLevel ≤ (addScore st score r gc ga).1.currentLevel ∧
    (addScore st score r gc ga).1.currentLevel ≤ 20 ∧
    (addScore st score r gc ga).2.leveledUp =
      decide (st.currentLevel < calculateLevel (addScore st score r gc ga).1.currentExp) := by
  rw [addScore_currentLevel, addScore_currentExp, addScore_leveledUp]
  have hmono : calculateLevel st.currentExp ≤ calculateLevel (st.currentExp + score) :=
    calculateLevel_mono _ _ (by omega)
  have hmax : max st.currentLevel (calculateLevel (st.currentExp + score)) =
      calculateLevel (st.currentExp + score) := by
    rw [hconsist]; exact max_eq_right hmono
  rw [hmax]
  refine ⟨rfl, ?_, ?_, ?_, calculateLevel_le_20 _, rfl⟩
  · exact calculateLevel_threshold _ (by omega)
  · intro j hj1 hj20 hth
    exact calculateLevel_greatest _ j hj1 hj20 hth
  · rw [hconsist]; exact hmono

/-- Witness for C4: the spec's Example 3 -- experience 95 at level 1, a
correct answer worth 10 points reaches experience 105 and level 2. -/
theorem addScore_level_spec_witness :
    (addScore exState95 10 (some exResultPlus10) 1 1).1.currentLevel =
      calculateLevel (addScore exState95 10 (some exResultPlus10) 1 1).1.currentExp ∧
    levelThresholds.getD
        ((addScore exState95 10 (some exResultPlus10) 1 1).1.currentLevel - 1) 0 ≤
      (addScore exState95 10 (some exResultPlus10) 1 1).1.currentExp ∧
    (∀ j, 1 ≤ j → j ≤ 20 →
      levelThresholds.getD (j - 1) 0 ≤
        (addScore exState95 10 (some exResultPlus10) 1 1).1.currentExp →
      j ≤ (addScore exState95 10 (some exResultPlus10) 1 1).1.currentLevel) ∧
    exState95.currentLevel ≤
      (addScore exState95 10 (some exResultPlus10) 1 1).1.currentLevel ∧
    (addScore exState95 10 (some exResultPlus10) 1 1).1.currentLevel ≤ 20 ∧
    (addScore exState95 10 (some exResultPlus10) 1 1).2.leveledUp =
      decide (exState95.currentLevel <
        calculateLevel (addScore exState95 10 (some exResultPlus10) 1 1).1.currentExp) :=
  addScore_level_spec exState95 10 (some exResultPlus10) 1 1
    (by decide) (by decide) (by decide)

/-- C5: a correct result increments `currentStreak` by exactly 1 and sets
`maxStreak` to `max maxStreak (currentStreak + 1)`; an incorrect result
resets `currentStreak` to 0; `maxStreak` never decreases across a call. -/
theorem addScore_streak_spec (st : LevelSystemState) (score : ℤ)
    (r : Option ScoreResult) (gc ga : ℕ) :
    (∀ res, r = some res → res.isCorrect = true →
      (addScore st score r gc ga).1.streakCount = st.streakCount + 1 ∧
      (addScore st score r gc ga).1.maxStreak = max st.maxStreak (st.streakCount + 1)) ∧
    (∀ res, r = some res → res.isCorrect = false →
      (addScore st score r gc ga).1.streakCount = 0) ∧
    st.maxStreak ≤ (addScore st score r gc ga).1.maxStreak := by
  refine ⟨?_, ?_, ?_⟩
  · intro res hr hc; subst hr; exact addScore_streak_correct st score res gc ga hc
  · intro res hr hc; subst hr
    exact (addScore_streak_reset st score (some res) gc ga (by simpa using hc)).1
  · rcases r with _ | res
    · rw [(addScore_streak_reset st score none gc ga rfl).2]
    · rcases hb : res.isCorrect with _ | _
      · rw [(addScore_streak_reset st score (some res) gc ga (by simpa using hb)).2]
      · rw [(addScore_streak_correct st score res gc ga hb).2]
        exact le_max_left _ _

/-- Witness for C5: a correct result on a 4-streak state reaches streak 5
(the spec's Example 4 shape). -/
theorem addScore_streak_spec_witness :
    (∀ res, (some exResultStreak : Option ScoreResult) = some res →
      res.isCorrect = true →
      (addScore exStreak4 110 (some exResultStreak) 5 5).1.streakCount =
        exStreak4.streakCount + 1 ∧
      (addScore exStreak4 110 (some exResultStreak) 5 5).1.maxStreak =
        max exStreak4.maxStreak (exStreak4.streakCount + 1)) ∧
    (∀ res, (some exResultStreak : Option ScoreResult) = some res →
      res.isCorrect = false →
      (addScore exStreak4 110 (some exResultStreak) 5 5).1.streakCount = 0) ∧
    exStreak4.maxStreak ≤ (addScore exStreak4 110 (some exResultStreak) 5 5).1.maxStreak :=
  addScore_streak_spec exStreak4 110 (some exResultStreak) 5 5

/-- C9: `addScore` adds the score to both `totalScore` and `currentExp`, so
the two fields stay equal whenever they were equal before the call. -/
theorem addScore_totalScore_eq_exp (st : LevelSystemState) (score : ℤ)
    (r : Option ScoreResult) (gc ga : ℕ) :
    (addScore st score r gc ga).1.totalScore = st.totalScore + score ∧
    (addScore st score r gc ga).1.currentExp = st.currentExp + score ∧
    (st.totalScore = st.currentExp →
      (addScore st score r gc ga).1.totalScore = (addScore st score r gc ga).1.currentExp) := by
  refine ⟨addScore_totalScore st score r gc ga, addScore_currentExp st score r gc ga, ?_⟩
  intro h
  rw [addScore_totalScore, addScore_currentExp, h]

/-- Witness for C9 at a concrete state with equal score and experience. -/
theorem addScore_totalScore_eq_exp_witness :
    (addScore exState95 10 none 0 1).1.totalScore = exState95.totalScore + 10 ∧
    (addScore exState95 10 none 0 1).1.currentExp = exState95.currentExp + 10 ∧
    (exState95.totalScore = exState95.currentExp →
      (addScore exState95 10 none 0 1).1.totalScore =
        (addScore exState95 10 none 0 1).1.currentExp) :=
  addScore_totalScore_eq_exp exState95 10 none 0 1

/-- C10: a call with no question result takes the reset branch: the streak
becomes 0, `maxStreak` is unchanged, and the score is still added to both
`totalScore` and `currentExp`. -/
theorem addScore_none_result (st : LevelSystemState) (score : ℤ) (gc ga : ℕ) :
    (addScore st score none gc ga).1.streakCount = 0 ∧
    (addScore st score none gc ga).1.maxStreak = st.maxStreak ∧
    (addScore st score none gc ga).1.totalScore = st.totalScore + score ∧
    (addScore st score none gc ga).1.currentExp = st.currentExp + score := by
  obtain ⟨h1, h2⟩ := addScore_streak_reset st score none gc ga rfl
  exact ⟨h1, h2, addScore_totalScore st score none gc ga,
    addScore_currentExp st score none gc ga⟩

/-! ### C6: achievement evaluation -/

lemma contains_eq_false_iff (l : List String) (a : String) :
    l.contains a = false ↔ a ∉ l := by
  rw [List.contains, List.elem_eq_mem]
  simp

lemma contains_append_single (acc : List String) (a b : String) (h : b ≠ a) :
    (acc ++ [a]).contains b = acc.contains b := by
  simp [List.contains, List.elem_eq_mem, h]

/-- Folding `checkStep` appends, to both the earned list and the report,
exactly the ids of the definitions not already earned whose condition holds,
in list order — provided the remaining definitions have distinct ids. -/
lemma foldl_checkStep_spec (stats : PlayerStats) (r : Option ScoreResult) :
    ∀ (L : List AchievementDef) (acc out : List String),
      (L.map AchievementDef.id).Nodup →
      L.foldl (checkStep stats r) (acc, out) =
        (acc ++ (L.filter (fun d => !(acc.contains d.id) && d.condition stats r)).map
            AchievementDef.id,
         out ++ (L.filter (fun d => !(acc.contains d.id) && d.condition stats r)).map
            AchievementDef.id) := by
  intro L
  induction L with
  | nil => intro acc out _; simp
  | cons d L ih =>
    intro acc out hnd
    simp only [List.map_cons, List.nodup_cons, List.mem_map] at hnd
    obtain ⟨hd, hnd'⟩ := hnd
    rw [List.foldl_cons]
    by_cases hc : acc.contains d.id = true
    · have hstep : checkStep stats r (acc, out) d = (acc, out) := by
        rw [checkStep, if_pos hc]
      have hpd : (!(acc.contains d.id) && d.condition stats r) = false := by
        rw [hc]; rfl
      rw [hstep, ih acc out hnd', List.filter_cons, hpd]
      simp only [Bool.false_eq_true, if_false]
    · have hcontains : acc.contains d.id = false := by
        cases h : acc.contains d.id
        · rfl
        · exact absurd h hc
      by_cases hcond : d.condition stats r = true
      · have hstep : checkStep stats r (acc, out) d = (acc ++ [d.id], out ++ [d.id]) := by
          rw [checkStep, if_neg hc, if_pos hcond]
        rw [hstep, ih (acc ++ [d.id]) (out ++ [d.id]) hnd']
        have hfilter :
            L.filter (fun e => !((acc ++ [d.id]).contains e.id) && e.condition stats r) =
            L.filter (fun e => !(acc.contains e.id) && e.condition stats r) := by
          apply List.filter_congr
          intro e he
          have hne : e.id ≠ d.id := fun heq => hd ⟨e, he, heq⟩
          rw [contains_append_single acc d.id e.id hne]
        have hpd : (!(acc.contains d.id) && d.condition stats r) = true := by
          rw [hcontains, hcond]; rfl
        rw [hfilter, List.filter_cons, hpd]
        simp
      · have hcondf : d.condition stats r = false := by
          cases h : d.condition stats r
          · rfl
          · exact absurd h hcond
        have hstep : checkStep stats r (acc, out) d = (acc, out) := by
          rw [checkStep, if_neg hc, if_neg hcond]
        have hpd : (!(acc.contains d.id) && d.condition stats r) = false := by
          rw [hcontains, hcondf]; rfl
        rw [hstep, ih acc out hnd', List.filter_cons, hpd]
        simp only [Bool.false_eq_true, if_false]

lemma achievementDefinitions_ids_nodup :
    (achievementDefinitions.map AchievementDef.id).Nodup := by
  simp [achievementDefinitions]

/-- The report of `checkAchievements` on `(ach, stats, r)`. -/
lemma checkAchievements_eq (ach : List String) (stats : PlayerStats)
    (r : Option ScoreResult) :
    checkAchievements ach stats r =
      (ach ++ (achievementDefinitions.filter
          (fun d => !(ach.contains d.id) && d.condition stats r)).map AchievementDef.id,
       (achievementDefinitions.filter
          (fun d => !(ach.contains d.id) && d.condition stats r)).map AchievementDef.id) := by
  have h := foldl_checkStep_spec stats r achievementDefinitions ach []
    achievementDefinitions_ids_nodup
  rw [checkAchievements, h]
  simp

/-- C6: achievement unlocking is idempotent and permanent. Already-earned
ids are never reported again; the earned list only grows (both through
`checkAchievements` and through a full `addScore` call); the report is
exactly the ids, in declaration order, of the definitions not yet earned
whose predicate holds on the given stats and last result; and re-evaluating
on the updated list reports nothing. -/
theorem checkAchievements_spec (ach : List String) (stats : PlayerStats)
    (r : Option ScoreResult) :
    (∀ a ∈ ach, a ∉ (checkAchievements ach stats r).2) ∧
    (checkAchievements ach stats r).1 = ach ++ (checkAchievements ach stats r).2 ∧
    (checkAchievements ach stats r).2 =
      (achievementDefinitions.filter
        (fun d => !(ach.contains d.id) && d.condition stats r)).map AchievementDef.id ∧
    (checkAchievements (checkAchievements ach stats r).1 stats r).2 = [] ∧
    (∀ (st : LevelSystemState) (score : ℤ) (qr : Option ScoreResult) (gc ga : ℕ),
      ∀ a ∈ st.achievements, a ∈ (addScore st score qr gc ga).1.achievements) := by
  rw [checkAchievements_eq]
  refine ⟨?_, rfl, rfl, ?_, ?_⟩
  · intro a ha hmem
    simp only [List.mem_map, List.mem_filter, Bool.and_eq_true] at hmem
    obtain ⟨d, ⟨_, hnc, _⟩, hid⟩ := hmem
    rw [hid] at hnc
    rw [Bool.not_eq_true', contains_eq_false_iff] at hnc
    exact hnc ha
  · rw [checkAchievements_eq]
    simp only []
    rw [List.map_eq_nil_iff, List.filter_eq_nil_iff]
    intro d hd hp
    rw [Bool.and_eq_true, Bool.not_eq_true', contains_eq_false_iff] at hp
    obtain ⟨hnc, hcond⟩ := hp
    rw [List.mem_append] at hnc
    push_neg at hnc
    obtain ⟨hna, hnrep⟩ := hnc
    apply hnrep
    simp only [List.mem_map, List.mem_filter]
    refine ⟨d, ⟨hd, ?_⟩, rfl⟩
    rw [Bool.and_eq_true, Bool.not_eq_true', contains_eq_false_iff]
    exact ⟨hna, hcond⟩
  · intro st score qr gc ga a ha
    obtain ⟨stats', hst⟩ := addScore_achievements st score qr gc ga
    rw [hst, checkAchievements_eq]
    exact List.mem_append_left _ ha

/-- Witness for C6: one achievement already earned, stats that satisfy the
streak-of-5 condition, no last result. -/
theorem checkAchievements_spec_witness :
    (∀ a ∈ exAch, a ∉ (checkAchievements exAch exStats none).2) ∧
    (checkAchievements exAch exStats none).1 =
      exAch ++ (checkAchievements exAch exStats none).2 ∧
    (checkAchievements exAch exStats none).2 =
      (achievementDefinitions.filter
        (fun d => !(exAch.contains d.id) && d.condition exStats none)).map
        AchievementDef.id ∧
    (checkAchievements (checkAchievements exAch exStats none).1 exStats none).2 = [] ∧
    (∀ (st : LevelSystemState) (score : ℤ) (qr : Option ScoreResult) (gc ga : ℕ),
      ∀ a ∈ st.achievements, a ∈ (addScore st score qr gc ga).1.achievements) :=
  checkAchievements_spec exAch exStats none

/-! ### C7 and C8 theorems -/

/-- For hint levels 1..3 the enhanced fallback always produces a hint whose
source is the string used by the source code. -/
lemma generateEnhancedFallbackHint_total (categoryOpt : Option String) (npc : String)
    (l : ℕ) (hl : l = 1 ∨ l = 2 ∨ l = 3) :
    ∃ h, generateEnhancedFallbackHint categoryOpt npc l = some h ∧
      h.source = "enhanced_fallback" ∧ h.hintLevel = l ∧ h.npcId = npc := by
  simp only [generateEnhancedFallbackHint, enhancedHintTemplates]
  rcases hl with rfl | rfl | rfl <;> split_ifs <;> exact ⟨_, rfl, rfl, rfl, rfl⟩

/-- C7 counterexample: on a network failure the resolver's hint carries
source "enhanced_fallback", not "fallback" as the claim states. -/
theorem fallback_source_counterexample :
    (requestNpcHint (some "alex_ceo") (some "EC2") 1 .networkError).map HintData.source =
      some "enhanced_fallback" ∧
    (requestNpcHint (some "alex_ceo") (some "EC2") 1 .networkError).map HintData.source ≠
      some "fallback" := by
  obtain ⟨h, hgen, hsrc, _, _⟩ :=
    generateEnhancedFallbackHint_total (some "EC2") "alex_ceo" 1 (Or.inl rfl)
  have hreq : requestNpcHint (some "alex_ceo") (some "EC2") 1 .networkError =
      generateEnhancedFallbackHint (some "EC2") "alex_ceo" 1 := rfl
  rw [hreq, hgen]
  simp only [Option.map_some']
  rw [hsrc]
  exact ⟨rfl, by decide⟩

/-- C7 (amended): with a current NPC and a hint level in 1..3, every remote
failure (network error, non-success response, malformed payload) is absorbed:
the resolver returns the deterministic local fallback hint, and its source
field equals "enhanced_fallback". -/
theorem requestNpcHint_fallback (npc : String) (category : Option String)
    (hintLevel : ℕ) (remote : RemoteHintOutcome)
    (hfail : remote.isFailure = true) (hl : hintLevel = 1 ∨ hintLevel = 2 ∨ hintLevel = 3) :
    requestNpcHint (some npc) category hintLevel remote =
      generateEnhancedFallbackHint category npc hintLevel ∧
    ∃ h, requestNpcHint (some npc) category hintLevel remote = some h ∧
      h.source = "enhanced_fallback" ∧ h.hintLevel = hintLevel ∧ h.npcId = npc := by
  have heq : requestNpcHint (some npc) category hintLevel remote =
      generateEnhancedFallbackHint category npc hintLevel := by
    cases remote with
    | ok payload => simp [RemoteHintOutcome.isFailure] at hfail
    | networkError => rfl
    | httpError status => rfl
    | malformedBody => rfl
  obtain ⟨h, hgen, hsrc, hlev, hnpc⟩ :=
    generateEnhancedFallbackHint_total category npc hintLevel hl
  exact ⟨heq, h, heq.trans hgen, hsrc, hlev, hnpc⟩

/-- Witness for C7 (amended): network failure, category EC2, hint level 1. -/
theorem requestNpcHint_fallback_witness :
    requestNpcHint (some "alex_ceo") (some "EC2") 1 .networkError =
      generateEnhancedFallbackHint (some "EC2") "alex_ceo" 1 ∧
    ∃ h, requestNpcHint (some "alex_ceo") (some "EC2") 1 .networkError = some h ∧
      h.source = "enhanced_fallback" ∧ h.hintLevel = 1 ∧ h.npcId = "alex_ceo" :=
  requestNpcHint_fallback "alex_ceo" (some "EC2") 1 .networkError rfl (Or.inl rfl)

/-- C8 counterexample: with a question loaded, no hints used and the typed
effect ACTIVE, `requestHint` proceeds to the hint lookup instead of being
rejected; no SessionBusy-style rejection exists in the guard. -/
theorem requestHint_during_typing_counterexample :
    requestHintGate (some exampleQuestion) 0 true = .proceedsToHint := rfl

/-- C8 (amended): the `requestHint` guard ignores the typed-text effect — its
outcome is independent of the typing flag, and with a loaded question and
fewer than 3 hints used it proceeds even while a typed effect is active (the
code has no SessionBusy condition); invoking skip while no typed effect is
active leaves the session state unchanged. -/
theorem requestHint_gate_spec (cq : Option Question) (hintsUsed : ℕ) (typing : Bool)
    (st : NpcSessionState) :
    requestHintGate cq hintsUsed typing = requestHintGate cq hintsUsed false ∧
    (∀ q, cq = some q → hintsUsed < 3 →
      requestHintGate cq hintsUsed typing = .proceedsToHint) ∧
    (st.isTyping = false → skipDialogue st = st) := by
  refine ⟨rfl, ?_, ?_⟩
  · intro q hq hlt
    subst hq
    simp only [requestHintGate, if_neg (by omega : ¬ 3 ≤ hintsUsed)]
  · intro htyping
    cases st with
    | mk t n =>
      simp only at htyping
      subst htyping
      rfl

/-- Witness for C8 (amended): question loaded, zero hints, typed effect
active; idle session for the skip no-op. -/
theorem requestHint_gate_spec_witness :
    requestHintGate (some exampleQuestion) 0 true =
      requestHintGate (some exampleQuestion) 0 false ∧
    (∀ q, (some exampleQuestion : Option Question) = some q → 0 < 3 →
      requestHintGate (some exampleQuestion) 0 true = .proceedsToHint) ∧
    (NpcSessionState.mk false none |>.isTyping) = false →
      skipDialogue (NpcSessionState.mk false none) = NpcSessionState.mk false none :=
  fun _ => requestHint_gate_spec (some exampleQuestion) 0 true
    (NpcSessionState.mk false none) |>.2.2 rfl

end Spec2Proof
